import Mathlib

/-!
Verification of the membership management backend
(`Backend/src/modern/routes`): the membership lifecycle calculator
(`memberships.service.ts`), the creation-request validation rules
(`dto/createMembership.dto.ts`), the legacy error-priority filter
(`LegacyValidationExceptionFilter`) and the controller surface
(`memberships.controller.ts`).

Dates: the service manipulates JavaScript `Date` values at midnight
(inputs are ISO day strings).  We model the calendar component of a
`Date` as a (year, 0-based month, 1-based day) triple; `setMonth`,
`setFullYear` and `setDate` follow ECMAScript semantics, where an
out-of-range day-of-month rolls over into the following month rather
than clamping.  Instants compared by `dayjs`/`Date` ordering (`now`,
period boundaries in the termination logic) are modelled as naturals.
-/

namespace ApiRefactoring

/-- Billing intervals accepted by the API (`memberships.types.ts`). -/
inductive BillingInterval
  | monthly
  | yearly
  | weekly
deriving DecidableEq

/-- Membership / period states used by the service. -/
inductive MState
  | pending
  | active
  | expired
  | terminated
deriving DecidableEq

/-- Gregorian leap-year test, as used by JavaScript `Date`. -/
def isLeapYear (y : Nat) : Bool :=
  (y % 4 == 0 && y % 100 != 0) || y % 400 == 0

/-- Number of days of month `m` (0-based, as JS `getMonth`) of year `y`. -/
def daysInMonth (y m : Nat) : Nat :=
  if m = 1 then (if isLeapYear y then 29 else 28)
  else if m = 3 ∨ m = 5 ∨ m = 8 ∨ m = 10 then 30
  else 31

/-- The calendar component of a JavaScript `Date`: year, 0-based month
(as `getMonth`), 1-based day (as `getDate`). -/
structure JSDate where
  year : Nat
  month : Nat
  day : Nat
deriving DecidableEq

/-- A calendar triple that denotes an actual day. -/
def JSDate.Valid (d : JSDate) : Prop :=
  d.month < 12 ∧ 1 ≤ d.day ∧ d.day ≤ daysInMonth d.year d.month

instance (d : JSDate) : Decidable d.Valid := by
  unfold JSDate.Valid; infer_instance

/-- ECMAScript date normalisation for a (year, month < 12, day) triple
whose day may exceed the month length (by at most one month's worth,
which covers every day value ≤ 31): the excess rolls into the next
month.  This is what `Date` does after `setMonth`/`setFullYear`. -/
def resolveDay (y m d : Nat) : JSDate :=
  if d ≤ daysInMonth y m then ⟨y, m, d⟩
  else if m = 11 then ⟨y + 1, 0, d - daysInMonth y m⟩
  else ⟨y, m + 1, d - daysInMonth y m⟩

/-- Linear month count of a date (year × 12 + month). -/
def ymOf (d : JSDate) : Nat := d.year * 12 + d.month

/-- JavaScript `date.setMonth(date.getMonth() + n)`. -/
def setMonthAdd (dt : JSDate) (n : Nat) : JSDate :=
  resolveDay ((ymOf dt + n) / 12) ((ymOf dt + n) % 12) dt.day

/-- JavaScript `date.setFullYear(date.getFullYear() + n)`. -/
def setFullYearAdd (dt : JSDate) (n : Nat) : JSDate :=
  resolveDay (dt.year + n) dt.month dt.day

/-- The day after `dt` (for canonical `dt`). -/
def nextDay (dt : JSDate) : JSDate :=
  if dt.day < daysInMonth dt.year dt.month then ⟨dt.year, dt.month, dt.day + 1⟩
  else if dt.month = 11 then ⟨dt.year + 1, 0, 1⟩
  else ⟨dt.year, dt.month + 1, 1⟩

/-- JavaScript `date.setDate(date.getDate() + n)` on a canonical date:
advance `n` days. -/
def addDays (dt : JSDate) : Nat → JSDate
  | 0 => dt
  | n + 1 => nextDay (addDays dt n)

/-- Injective, order-reflecting key of a calendar triple (months have at
most 31 days, so the lexicographic order on (year, month, day) agrees
with this key on canonical dates). -/
def dateKey (d : JSDate) : Nat := d.year * 372 + d.month * 31 + d.day

/-- `MembershipsService.calculateValidUntil`
(`memberships.service.ts:183-201`): advance `validFrom` by
`billingPeriods` months (monthly), `billingPeriods * 12` months
(yearly), or `billingPeriods * 7` days (weekly), with JS `setMonth` /
`setDate` semantics. -/
def calculateValidUntil (validFrom : JSDate) (billingInterval : BillingInterval)
    (billingPeriods : Nat) : JSDate :=
  match billingInterval with
  | .monthly => setMonthAdd validFrom billingPeriods
  | .yearly => setMonthAdd validFrom (billingPeriods * 12)
  | .weekly => addDays validFrom (billingPeriods * 7)

/-- `MembershipsService.calculatePeriodEnd`
(`memberships.service.ts:255-272`): one interval's advance
(`setMonth(+1)` / `setFullYear(+1)` / `setDate(+7)`). -/
def calculatePeriodEnd (periodStart : JSDate) (billingInterval : BillingInterval) :
    JSDate :=
  match billingInterval with
  | .monthly => setMonthAdd periodStart 1
  | .yearly => setFullYearAdd periodStart 1
  | .weekly => addDays periodStart 7

/-- `MembershipsService.determineMembershipState`
(`memberships.service.ts:203-208`): `pending` if `validFrom > now`,
else `expired` if `validUntil < now`, else `active`.  Instants are
timestamps. -/
def determineMembershipState (validFrom validUntil now : Nat) : MState :=
  if now < validFrom then .pending
  else if validUntil < now then .expired
  else .active

/-- `MembershipsService.determinePeriodState`
(`memberships.service.ts:221-226`): same comparisons applied to a
period's own start and end. -/
def determinePeriodState (start stop now : Nat) : MState :=
  if now < start then .pending
  else if stop < now then .expired
  else .active

/-- One generated membership period: start, end, and the state stamped
at creation time. -/
structure PeriodEntity where
  start : JSDate
  stop : JSDate
  state : MState
deriving DecidableEq

/-- The loop body of `createMembershipPeriodEntities`, recursing on the
remaining iteration count. -/
def buildPeriods (billingInterval : BillingInterval) (now : Nat) :
    Nat → JSDate → List PeriodEntity
  | 0, _ => []
  | n + 1, start =>
    ⟨start, calculatePeriodEnd start billingInterval,
      determinePeriodState (dateKey start)
        (dateKey (calculatePeriodEnd start billingInterval)) now⟩ ::
      buildPeriods billingInterval now n (calculatePeriodEnd start billingInterval)

/-- `MembershipsService.createMembershipPeriodEntities`
(`memberships.service.ts:228-253`): starting at `validFrom`, repeatedly
take one interval's advance as the period end, chain the next period's
start from it, for exactly `billingPeriods` iterations; each period is
stamped with `determinePeriodState` of its own boundaries (dates
compared as instants via `dateKey`). -/
def createMembershipPeriodEntities (start : JSDate)
    (billingInterval : BillingInterval) (now : Nat) (billingPeriods : Nat) :
    List PeriodEntity :=
  buildPeriods billingInterval now billingPeriods start

/-- A stored membership period as read back for termination: start and
end instants (timestamps, as compared by `dayjs`) and its state. -/
structure TPeriod where
  startT : Nat
  endT : Nat
  state : MState
deriving DecidableEq

/-- A stored membership with its period rows, as loaded by
`terminateMembership` (`relations: ['periods']`). -/
structure TMembership where
  state : MState
  periods : List TPeriod
deriving DecidableEq

/-- The periods with `end` after `now` (`dayjs(period.end).isAfter(now)`,
`memberships.service.ts:100-102`). -/
def remainingPeriodsOf (m : TMembership) (now : Nat) : List TPeriod :=
  m.periods.filter (fun p => now < p.endT)

/-- `MembershipsService.terminateMembership`
(`memberships.service.ts:82-133`) on a membership that was found: `none`
models `return false`, `some m` the stored outcome of a successful run
(every period whose end is after `now` and the membership set to
`terminated`).  Mirrors the source's order of checks: state must be
`active` or `pending`; then, if exactly one period remains and its start
`isBefore`-or-`isSame` `now`, fail; then, if no period remains, fail. -/
def terminateMembership (m : TMembership) (now : Nat) : Option TMembership :=
  if m.state = .active ∨ m.state = .pending then
    let remaining := remainingPeriodsOf m now
    if remaining.length = 1 ∧ (remaining.headD ⟨0, 0, .active⟩).startT ≤ now then
      none
    else if remaining.length = 0 then
      none
    else
      some ⟨.terminated,
        m.periods.map (fun p =>
          if now < p.endT then { p with state := MState.terminated } else p)⟩
  else none

/-- One repository write of the termination sequence
(`memberships.service.ts:122-130`): saving one period row (by position
in the membership's period list), or saving the membership row. -/
inductive WriteOp
  | savePeriod (idx : Nat)
  | saveMembership
deriving DecidableEq

/-- Sets the period at position `i` to `terminated`, as one
`membershipPeriodRepository.save(period)` does after
`period.state = 'terminated'`. -/
def setPeriodTerminated : List TPeriod → Nat → List TPeriod
  | [], _ => []
  | p :: rest, 0 => { p with state := MState.terminated } :: rest
  | p :: rest, i + 1 => p :: setPeriodTerminated rest i

/-- Effect of one repository write on the stored membership. -/
def applyOp (m : TMembership) : WriteOp → TMembership
  | .savePeriod i => { m with periods := setPeriodTerminated m.periods i }
  | .saveMembership => { m with state := MState.terminated }

/-- Effect of a sequence of repository writes. -/
def applyOps (m : TMembership) (ops : List WriteOp) : TMembership :=
  ops.foldl applyOp m

/-- The write sequence `terminateMembership` issues on success
(`memberships.service.ts:122-130`): one save per remaining period, in
list order, then one save of the membership.  No transaction encloses
the sequence in the source. -/
def terminateWriteOps (m : TMembership) (now : Nat) : List WriteOp :=
  (((List.range m.periods.length).filter (fun i =>
      match m.periods.get? i with
      | some p => now < p.endT
      | none => false)).map WriteOp.savePeriod) ++ [WriteOp.saveMembership]

/-! ## Validation rules (`dto/createMembership.dto.ts`) -/

/-- The intervals `ValidateBillingPeriodsConstraint` recognises. -/
def validIntervals : List String := ["monthly", "weekly", "yearly"]

/-- `ValidateBillingPeriodsConstraint.validate`
(`createMembership.dto.ts:44-64`): passes when the interval is not a
valid one (the `IsEnum` validator reports that error instead); monthly
requires `6 ≤ billingPeriods ≤ 12`, yearly `billingPeriods ≤ 10`,
weekly `billingPeriods ≤ 26`.  `none` models an absent
`billingInterval` field (`includes(undefined)` is false, so the
constraint passes). -/
def validateBillingPeriods (billingInterval : Option String)
    (billingPeriods : Int) : Bool :=
  match billingInterval with
  | none => true
  | some i =>
    if ¬ validIntervals.contains i then true
    else if i = "monthly" then decide (6 ≤ billingPeriods ∧ billingPeriods ≤ 12)
    else if i = "yearly" then decide (billingPeriods ≤ 10)
    else decide (billingPeriods ≤ 26)

/-- `ValidateBillingPeriodsConstraint.defaultMessage`
(`createMembership.dto.ts:66-91`). -/
def billingPeriodsMessage (billingInterval : Option String)
    (billingPeriods : Int) : String :=
  match billingInterval with
  | some "monthly" =>
    if billingPeriods < 6 then "billingPeriodsLessThan6Months"
    else if billingPeriods > 12 then "billingPeriodsMoreThan12Months"
    else "invalidBillingPeriods"
  | some "yearly" =>
    if billingPeriods > 10 then "billingPeriodsMoreThan10Years"
    else "invalidBillingPeriods"
  | some "weekly" =>
    if billingPeriods > 26 then "weeklyBillingCannotExceed6Months"
    else "invalidBillingPeriods"
  | _ => "invalidBillingPeriods"

/-- `CashPriceLimitConstraint.validate` (`createMembership.dto.ts:17-26`):
`!(paymentMethod === 'cash' && recurringPrice > 100)`. -/
def cashPriceLimitValidate (paymentMethod : Option String)
    (recurringPrice : Int) : Bool :=
  ¬ (paymentMethod = some "cash" ∧ recurringPrice > 100)

/-- `CashPriceLimitConstraint.defaultMessage`. -/
def cashPriceLimitMessage : String := "cashPriceBelow100"

/-- A raw creation request body (`CreateMembershipDto` fields); `none`
models an absent field. -/
structure CreateReq where
  name : Option String
  recurringPrice : Option Int
  paymentMethod : Option String
  billingInterval : Option String
  billingPeriods : Option Int
  validFrom : Option String
deriving DecidableEq

/-- `IsNotEmpty`: fails on an absent field and on the empty string. -/
def isNotEmptyStr : Option String → Bool
  | none => false
  | some s => ¬ (s = "")

/-- The validation messages class-validator collects for a request, in
DTO property declaration order (name, recurringPrice, paymentMethod,
billingInterval, billingPeriods, validFrom).  `isDateString` is the
`IsDateString` date-string check, kept abstract.  For a field that
fails `IsNotEmpty` only `missingMandatoryFields` is recorded: further
same-property messages never affect the selected legacy code, because
`missingMandatoryFields` heads the priority list and precedes them in
property order. -/
def validationMessages (isDateString : String → Bool) (r : CreateReq) :
    List String :=
  (if isNotEmptyStr r.name then [] else ["missingMandatoryFields"])
  ++ (match r.recurringPrice with
      | none => ["missingMandatoryFields"]
      | some p =>
        (if p < 0 then ["negativeRecurringPrice"] else [])
        ++ (if cashPriceLimitValidate r.paymentMethod p then []
            else [cashPriceLimitMessage]))
  ++ (match r.paymentMethod with
      | none => ["missingMandatoryFields"]
      | some pm =>
        if pm = "" then ["missingMandatoryFields"]
        else if pm = "cash" ∨ pm = "credit card" then []
        else ["invalidPaymentMethod"])
  ++ (match r.billingInterval with
      | none => ["missingMandatoryFields"]
      | some bi =>
        if bi = "" then ["missingMandatoryFields"]
        else if validIntervals.contains bi then []
        else ["invalidBillingInterval"])
  ++ (match r.billingPeriods with
      | none => ["missingMandatoryFields"]
      | some bp =>
        (if bp < 1 then ["billingPeriodsCannotBeLessThan1"] else [])
        ++ (if validateBillingPeriods r.billingInterval bp then []
            else [billingPeriodsMessage r.billingInterval bp]))
  ++ (match r.validFrom with
      | none => []
      | some s => if isDateString s then [] else ["validFromMustBeAValidDateString"])

/-- `LegacyValidationExceptionFilter.errorPriority` (filter source,
lines 22-31). -/
def errorPriority : List String :=
  ["missingMandatoryFields", "negativeRecurringPrice", "cashPriceBelow100",
   "billingPeriodsMoreThan12Months", "billingPeriodsLessThan6Months",
   "billingPeriodsMoreThan10Years", "billingPeriodsLessThan3Years",
   "invalidBillingPeriods"]

/-- `LegacyValidationExceptionFilter.getHighestPriorityError`: the first
code of `errorPriority` occurring among the messages, else
`messages[0]`.  (The source tests `msg.includes(errorCode)`; on the
exact codes the DTO emits, none of which contains another as a
substring, this coincides with equality.) -/
def getHighestPriorityError (messages : List String) : String :=
  match errorPriority.find? (fun code => messages.contains code) with
  | some c => c
  | none => messages.headD ""

/-- The single error code the filter reports for a request, or `none`
when validation passes and no `BadRequestException` is raised
(`MembershipsController.create` then proceeds). -/
def legacyResponse (isDateString : String → Bool) (r : CreateReq) :
    Option String :=
  match validationMessages isDateString r with
  | [] => none
  | msgs => some (getHighestPriorityError msgs)

/-- Some mandatory field is absent (or an empty string, which
`IsNotEmpty` rejects). -/
def anyMissing (r : CreateReq) : Bool :=
  !(isNotEmptyStr r.name) || r.recurringPrice.isNone
    || !(isNotEmptyStr r.paymentMethod) || !(isNotEmptyStr r.billingInterval)
    || r.billingPeriods.isNone

/-- `recurringPrice` is present and negative. -/
def priceNegative (r : CreateReq) : Bool :=
  match r.recurringPrice with
  | some p => p < 0
  | none => false

/-- The cash price limit rule fails. -/
def cashFails (r : CreateReq) : Bool :=
  match r.recurringPrice with
  | some p => ¬ cashPriceLimitValidate r.paymentMethod p
  | none => false

/-- `billingInterval` is present and nonempty but not one of the three
valid intervals. -/
def intervalInvalid (r : CreateReq) : Bool :=
  match r.billingInterval with
  | some bi => ¬ (bi = "") ∧ ¬ validIntervals.contains bi
  | none => false

/-- `billingPeriods` is present and violates its bounds (the
interval-specific bound, or the `Min(1)` floor). -/
def bpOutOfBounds (r : CreateReq) : Bool :=
  match r.billingPeriods with
  | some bp => ¬ validateBillingPeriods r.billingInterval bp ∨ bp < 1
  | none => false

/-- The billing-period code the claim expects for an out-of-bounds
count: the interval-specific message when the constraint fails, else
the `Min(1)` code. -/
def bpBoundsCode (r : CreateReq) : String :=
  match r.billingPeriods with
  | some bp =>
    if ¬ validateBillingPeriods r.billingInterval bp then
      billingPeriodsMessage r.billingInterval bp
    else "billingPeriodsCannotBeLessThan1"
  | none => "billingPeriodsCannotBeLessThan1"

/-- `validFrom` is present but not a valid date string. -/
def validFromBad (isDateString : String → Bool) (r : CreateReq) : Bool :=
  match r.validFrom with
  | some s => ¬ isDateString s
  | none => false

/-- The single error code the spec's fixed priority order prescribes
(spec §4.1: missing mandatory fields, then negative price, then cash
limit, then interval, then billing-period bounds, then validFrom
format); written from the claim's words, to be compared with the
filter's behaviour. -/
def claimOrderedError (isDateString : String → Bool) (r : CreateReq) :
    Option String :=
  if anyMissing r then some "missingMandatoryFields"
  else if priceNegative r then some "negativeRecurringPrice"
  else if cashFails r then some "cashPriceBelow100"
  else if intervalInvalid r then some "invalidBillingInterval"
  else if bpOutOfBounds r then some (bpBoundsCode r)
  else if validFromBad isDateString r then some "validFromMustBeAValidDateString"
  else none

/-! ## Controller surface (`memberships.controller.ts`) -/

/-- An HTTP response: status code and message. -/
structure HttpResponse where
  status : Nat
  message : String
deriving DecidableEq

/-- The 400 body `MembershipsController.terminateMembership` throws when
the service returns `false` (`memberships.controller.ts:46-51`). -/
def terminationNotAllowedMsg : String :=
  "Termination not allowed: Membership must be active/pending and not in the last period"

/-- A store of memberships keyed by numeric id. -/
def findMembership (store : List (Nat × TMembership)) (id : Nat) :
    Option TMembership :=
  (store.find? (fun e => e.fst = id)).map Prod.snd

/-- `MembershipsService.terminateMembership`'s boolean result over a
store: `false` both when the id is absent
(`memberships.service.ts:88`) and when a precondition fails. -/
def terminateMembershipById (store : List (Nat × TMembership))
    (id now : Nat) : Bool :=
  match findMembership store id with
  | none => false
  | some m => (terminateMembership m now).isSome

/-- `MembershipsController.terminateMembership`: 200 on success,
otherwise one fixed 400 response. -/
def controllerTerminate (store : List (Nat × TMembership)) (id now : Nat) :
    HttpResponse :=
  if terminateMembershipById store id now then
    ⟨200, "Membership terminated successfully"⟩
  else ⟨400, terminationNotAllowedMsg⟩

/-- `MembershipsService.deleteMembership`
(`memberships.service.ts:165-181`) as surfaced by the controller: 404
`NotFoundException` when the id is absent, else the success message. -/
def controllerDelete (store : List (Nat × TMembership)) (id : Nat) :
    HttpResponse :=
  match findMembership store id with
  | none => ⟨404, "Membership with ID " ++ toString id ++ " not found"⟩
  | some _ =>
    ⟨200, "Membership with ID " ++ toString id ++ " has been successfully deleted"⟩

/-- Contiguity of a period list: each period's end is the next one's
start. -/
def Chained : List PeriodEntity → Prop
  | [] => True
  | [_] => True
  | p :: q :: rest => p.stop = q.start ∧ Chained (q :: rest)

/-- Iterating `calculatePeriodEnd`, as the period-generation loop
chains period ends. -/
def iterEnd (bi : BillingInterval) : Nat → JSDate → JSDate
  | 0, d => d
  | n + 1, d => iterEnd bi n (calculatePeriodEnd d bi)

/-! ## Theorems -/

theorem daysInMonth_le_31 (y m : Nat) : daysInMonth y m ≤ 31 := by
  unfold daysInMonth; split_ifs <;> omega

theorem daysInMonth_ge_28 (y m : Nat) : 28 ≤ daysInMonth y m := by
  unfold daysInMonth; split_ifs <;> omega

theorem dateKey_le_setMonthAdd (d : JSDate) (h : d.Valid) (n : Nat) :
    dateKey d ≤ dateKey (setMonthAdd d n) := by
  obtain ⟨hm, hd1, hd2⟩ := h
  have hd31 : d.day ≤ 31 := le_trans hd2 (daysInMonth_le_31 _ _)
  have hge : 28 ≤ daysInMonth ((ymOf d + n) / 12) ((ymOf d + n) % 12) :=
    daysInMonth_ge_28 _ _
  have hle : daysInMonth ((ymOf d + n) / 12) ((ymOf d + n) % 12) ≤ 31 :=
    daysInMonth_le_31 _ _
  unfold setMonthAdd resolveDay
  split_ifs <;> simp only [dateKey, ymOf] at * <;> omega

theorem valid_nextDay (d : JSDate) (h : d.Valid) : (nextDay d).Valid := by
  obtain ⟨hm, h1, h2⟩ := h
  unfold nextDay
  split_ifs with ha hb
  · refine ⟨?_, ?_, ?_⟩
    · show d.month < 12
      exact hm
    · show 1 ≤ d.day + 1
      omega
    · show d.day + 1 ≤ daysInMonth d.year d.month
      omega
  · refine ⟨?_, ?_, ?_⟩
    · show (0 : Nat) < 12
      omega
    · show (1 : Nat) ≤ 1
      omega
    · show (1 : Nat) ≤ daysInMonth (d.year + 1) 0
      have := daysInMonth_ge_28 (d.year + 1) 0
      omega
  · refine ⟨?_, ?_, ?_⟩
    · show d.month + 1 < 12
      omega
    · show (1 : Nat) ≤ 1
      omega
    · show (1 : Nat) ≤ daysInMonth d.year (d.month + 1)
      have := daysInMonth_ge_28 d.year (d.month + 1)
      omega

theorem dateKey_lt_nextDay (d : JSDate) (h : d.Valid) :
    dateKey d < dateKey (nextDay d) := by
  obtain ⟨hm, h1, h2⟩ := h
  have hle := daysInMonth_le_31 d.year d.month
  unfold nextDay
  split_ifs <;> simp only [dateKey] at * <;> omega

theorem valid_addDays (d : JSDate) (h : d.Valid) (n : Nat) :
    (addDays d n).Valid := by
  induction n with
  | zero => exact h
  | succ k ih => exact valid_nextDay _ ih

theorem dateKey_le_addDays (d : JSDate) (h : d.Valid) (n : Nat) :
    dateKey d ≤ dateKey (addDays d n) := by
  induction n with
  | zero => exact le_refl _
  | succ k ih =>
    exact le_trans ih (le_of_lt (dateKey_lt_nextDay _ (valid_addDays d h k)))

theorem addDays_add (d : JSDate) (a b : Nat) :
    addDays d (a + b) = addDays (addDays d a) b := by
  induction b with
  | zero => rfl
  | succ k ih => show nextDay (addDays d (a + k)) = _; rw [ih]; rfl

theorem setMonthAdd_of_day_le (d : JSDate) (h : d.day ≤ 28) (n : Nat) :
    setMonthAdd d n = ⟨(ymOf d + n) / 12, (ymOf d + n) % 12, d.day⟩ := by
  unfold setMonthAdd resolveDay
  rw [if_pos (le_trans h (daysInMonth_ge_28 _ _))]

theorem setFullYearAdd_of_day_le (d : JSDate) (h : d.day ≤ 28) (n : Nat) :
    setFullYearAdd d n = ⟨d.year + n, d.month, d.day⟩ := by
  unfold setFullYearAdd resolveDay
  rw [if_pos (le_trans h (daysInMonth_ge_28 _ _))]

theorem ymOf_setMonthAdd_of_day_le (d : JSDate) (h : d.day ≤ 28) (n : Nat) :
    ymOf (setMonthAdd d n) = ymOf d + n := by
  rw [setMonthAdd_of_day_le d h n]
  show (ymOf d + n) / 12 * 12 + (ymOf d + n) % 12 = ymOf d + n
  omega

theorem setMonthAdd_setMonthAdd_of_day_le (d : JSDate) (h : d.day ≤ 28)
    (a b : Nat) : setMonthAdd (setMonthAdd d a) b = setMonthAdd d (a + b) := by
  have hday : (setMonthAdd d a).day = d.day := by rw [setMonthAdd_of_day_le d h a]
  rw [setMonthAdd_of_day_le _ (by rw [hday]; exact h) b,
    setMonthAdd_of_day_le d h (a + b), ymOf_setMonthAdd_of_day_le d h a, hday]
  congr 2 <;> omega

theorem length_buildPeriods (bi : BillingInterval) (now : Nat) :
    ∀ (n : Nat) (start : JSDate), (buildPeriods bi now n start).length = n := by
  intro n
  induction n with
  | zero => intro start; rfl
  | succ k ih =>
    intro start
    simp only [buildPeriods, List.length_cons, ih]

theorem chained_buildPeriods (bi : BillingInterval) (now : Nat) :
    ∀ (n : Nat) (start : JSDate), Chained (buildPeriods bi now n start) := by
  intro n
  induction n with
  | zero => intro start; trivial
  | succ k ih =>
    intro start
    cases k with
    | zero => simp [buildPeriods, Chained]
    | succ j =>
      have h := ih (calculatePeriodEnd start bi)
      simp only [buildPeriods] at h ⊢
      exact ⟨rfl, h⟩

theorem head_buildPeriods (bi : BillingInterval) (now : Nat) (n : Nat)
    (start : JSDate) :
    (buildPeriods bi now (n + 1) start).head?.map PeriodEntity.start
      = some start := rfl

theorem getLast_buildPeriods (bi : BillingInterval) (now : Nat) :
    ∀ (n : Nat) (start : JSDate),
      (buildPeriods bi now (n + 1) start).getLast?.map PeriodEntity.stop
        = some (iterEnd bi (n + 1) start) := by
  intro n
  induction n with
  | zero => intro start; rfl
  | succ j ih =>
    intro start
    obtain ⟨q, rest, hq⟩ : ∃ q rest,
        buildPeriods bi now (j + 1) (calculatePeriodEnd start bi)
          = q :: rest := ⟨_, _, rfl⟩
    have step : buildPeriods bi now (j + 1 + 1) start
        = ⟨start, calculatePeriodEnd start bi,
            determinePeriodState (dateKey start)
              (dateKey (calculatePeriodEnd start bi)) now⟩ ::
          buildPeriods bi now (j + 1) (calculatePeriodEnd start bi) := rfl
    have hiter : iterEnd bi (j + 1 + 1) start
        = iterEnd bi (j + 1) (calculatePeriodEnd start bi) := rfl
    rw [step, hq, List.getLast?_cons_cons, ← hq, hiter]
    exact ih (calculatePeriodEnd start bi)

theorem iterEnd_weekly (n : Nat) : ∀ start : JSDate,
    iterEnd BillingInterval.weekly n start = addDays start (n * 7) := by
  induction n with
  | zero => intro start; rfl
  | succ k ih =>
    intro start
    have hstep : iterEnd BillingInterval.weekly (k + 1) start
        = iterEnd BillingInterval.weekly k (addDays start 7) := rfl
    rw [hstep, ih (addDays start 7), ← addDays_add]
    congr 1
    omega

theorem iterEnd_monthly_of_day_le (n : Nat) : ∀ start : JSDate,
    start.day ≤ 28 → start.month < 12 →
    iterEnd BillingInterval.monthly n start = setMonthAdd start n := by
  induction n with
  | zero =>
    intro start h hm
    show start = setMonthAdd start 0
    rw [setMonthAdd_of_day_le start h 0]
    obtain ⟨y, m, dd⟩ := start
    simp only [ymOf]
    congr 1 <;> simp only at hm ⊢ <;> omega
  | succ k ih =>
    intro start h hm
    have hstep : iterEnd BillingInterval.monthly (k + 1) start
        = iterEnd BillingInterval.monthly k (setMonthAdd start 1) := rfl
    have hday : (setMonthAdd start 1).day = start.day := by
      rw [setMonthAdd_of_day_le start h 1]
    have hmon : (setMonthAdd start 1).month < 12 := by
      rw [setMonthAdd_of_day_le start h 1]
      exact Nat.mod_lt _ (by omega)
    rw [hstep, ih (setMonthAdd start 1) (by rw [hday]; exact h) hmon,
      setMonthAdd_setMonthAdd_of_day_le start h 1 k]
    congr 1
    omega

theorem iterEnd_yearly_of_day_le (n : Nat) : ∀ start : JSDate,
    start.day ≤ 28 →
    iterEnd BillingInterval.yearly n start
      = ⟨start.year + n, start.month, start.day⟩ := by
  induction n with
  | zero => intro start h; rfl
  | succ k ih =>
    intro start h
    have hstep : iterEnd BillingInterval.yearly (k + 1) start
        = iterEnd BillingInterval.yearly k (setFullYearAdd start 1) := rfl
    rw [hstep, setFullYearAdd_of_day_le start h 1]
    rw [ih ⟨start.year + 1, start.month, start.day⟩ h]
    show (⟨start.year + 1 + k, start.month, start.day⟩ : JSDate)
        = ⟨start.year + (k + 1), start.month, start.day⟩
    congr 1
    omega

/-- Every period produced by the generation loop carries the state
`determinePeriodState` derives from its own boundaries. -/
theorem state_of_mem_buildPeriods (now : Nat) :
    ∀ (n : Nat) (start : JSDate) (bi : BillingInterval) (p : PeriodEntity),
      p ∈ buildPeriods bi now n start →
      p.state = determinePeriodState (dateKey p.start) (dateKey p.stop) now := by
  intro n
  induction n with
  | zero => intro start bi p hp; simp [buildPeriods] at hp
  | succ k ih =>
    intro start bi p hp
    simp only [buildPeriods, List.mem_cons] at hp
    rcases hp with h | h
    · subst h; rfl
    · exact ih _ _ _ h

/-- C5: `calculateValidUntil` advances `validFrom` by `billingPeriods`
months (monthly), `billingPeriods × 12` months (yearly) and
`billingPeriods × 7` days (weekly), and for every valid date and every
`billingPeriods ≥ 1` the result is never before `validFrom` (dates
compared through the order-reflecting `dateKey`). -/
theorem validUntil_advance_and_monotone (vf : JSDate) (n : Nat)
    (h : vf.Valid) (hn : 1 ≤ n) :
    calculateValidUntil vf BillingInterval.monthly n = setMonthAdd vf n
    ∧ calculateValidUntil vf BillingInterval.yearly n = setMonthAdd vf (n * 12)
    ∧ calculateValidUntil vf BillingInterval.weekly n = addDays vf (n * 7)
    ∧ ∀ bi : BillingInterval,
        dateKey vf ≤ dateKey (calculateValidUntil vf bi n) := by
  refine ⟨rfl, rfl, rfl, ?_⟩
  intro bi
  cases bi with
  | monthly => exact dateKey_le_setMonthAdd vf h n
  | yearly => exact dateKey_le_setMonthAdd vf h (n * 12)
  | weekly => exact dateKey_le_addDays vf h (n * 7)

/-- Witness for C5 at `validFrom` = 2024-07-01 (year 2024, month index 6,
day 1) and `billingPeriods` = 6. -/
theorem validUntil_advance_and_monotone_witness :
    (⟨2024, 6, 1⟩ : JSDate).Valid ∧ 1 ≤ 6
    ∧ (calculateValidUntil ⟨2024, 6, 1⟩ BillingInterval.monthly 6
          = setMonthAdd ⟨2024, 6, 1⟩ 6
      ∧ calculateValidUntil ⟨2024, 6, 1⟩ BillingInterval.yearly 6
          = setMonthAdd ⟨2024, 6, 1⟩ (6 * 12)
      ∧ calculateValidUntil ⟨2024, 6, 1⟩ BillingInterval.weekly 6
          = addDays ⟨2024, 6, 1⟩ (6 * 7)
      ∧ ∀ bi : BillingInterval,
          dateKey ⟨2024, 6, 1⟩ ≤ dateKey (calculateValidUntil ⟨2024, 6, 1⟩ bi 6)) :=
  ⟨by decide, by decide,
    validUntil_advance_and_monotone ⟨2024, 6, 1⟩ 6 (by decide) (by decide)⟩

/-- C2 (amended): the generated period list always has exactly
`billingPeriods` entries, is contiguous, and starts at `validFrom`; its
last end equals the membership's `validUntil` for weekly billing, and
for monthly/yearly billing whenever `validFrom`'s day-of-month is at
most 28, but not in general (see the counterexample: JS `setMonth`
month-end rollover makes the chained advance diverge from the single
N-month advance). -/
theorem periods_structure_amended (vf : JSDate) (bi : BillingInterval)
    (n now : Nat) (h : vf.Valid) (hn : 1 ≤ n) :
    (createMembershipPeriodEntities vf bi now n).length = n
    ∧ Chained (createMembershipPeriodEntities vf bi now n)
    ∧ (createMembershipPeriodEntities vf bi now n).head?.map PeriodEntity.start
        = some vf
    ∧ (bi = BillingInterval.weekly →
        (createMembershipPeriodEntities vf bi now n).getLast?.map PeriodEntity.stop
          = some (calculateValidUntil vf bi n))
    ∧ (vf.day ≤ 28 →
        (createMembershipPeriodEntities vf bi now n).getLast?.map PeriodEntity.stop
          = some (calculateValidUntil vf bi n)) := by
  obtain ⟨m, rfl⟩ : ∃ m, n = m + 1 := ⟨n - 1, by omega⟩
  unfold createMembershipPeriodEntities
  refine ⟨length_buildPeriods bi now _ vf, chained_buildPeriods bi now _ vf,
    head_buildPeriods bi now m vf, ?_, ?_⟩
  · intro hbi
    subst hbi
    rw [getLast_buildPeriods, iterEnd_weekly]
    rfl
  · intro hday
    cases bi with
    | monthly =>
      rw [getLast_buildPeriods, iterEnd_monthly_of_day_le _ vf hday h.1]
      rfl
    | yearly =>
      rw [getLast_buildPeriods, iterEnd_yearly_of_day_le _ vf hday]
      have hm := h.1
      rw [show calculateValidUntil vf BillingInterval.yearly (m + 1)
          = setMonthAdd vf ((m + 1) * 12) from rfl,
        setMonthAdd_of_day_le vf hday]
      simp only [Option.some.injEq]
      congr 1 <;> simp only [ymOf] <;> omega
    | weekly =>
      rw [getLast_buildPeriods, iterEnd_weekly]
      rfl

/-- Counterexample to C2 as stated: for the valid monthly request
`validFrom` = 2024-01-31, `billingPeriods` = 6, the chained period ends
finish at 2024-08-02 while the single 6-month advance gives 2024-07-31,
so the last period's end differs from `validUntil`. -/
theorem periods_lastEnd_ne_validUntil :
    (createMembershipPeriodEntities ⟨2024, 0, 31⟩ BillingInterval.monthly 0
        6).getLast?.map PeriodEntity.stop = some ⟨2024, 7, 2⟩
    ∧ calculateValidUntil ⟨2024, 0, 31⟩ BillingInterval.monthly 6 = ⟨2024, 6, 31⟩
    ∧ (createMembershipPeriodEntities ⟨2024, 0, 31⟩ BillingInterval.monthly 0
        6).getLast?.map PeriodEntity.stop
      ≠ some (calculateValidUntil ⟨2024, 0, 31⟩ BillingInterval.monthly 6) := by
  refine ⟨rfl, rfl, ?_⟩
  decide

/-- Witness for C2 (amended) at the spec's own scenario: `validFrom` =
2024-07-01, monthly, `billingPeriods` = 6. -/
theorem periods_structure_amended_witness :
    (⟨2024, 6, 1⟩ : JSDate).Valid ∧ 1 ≤ 6
    ∧ ((createMembershipPeriodEntities ⟨2024, 6, 1⟩ BillingInterval.monthly 0
          6).length = 6
      ∧ Chained (createMembershipPeriodEntities ⟨2024, 6, 1⟩
          BillingInterval.monthly 0 6)
      ∧ (createMembershipPeriodEntities ⟨2024, 6, 1⟩ BillingInterval.monthly 0
          6).head?.map PeriodEntity.start = some ⟨2024, 6, 1⟩
      ∧ (BillingInterval.monthly = BillingInterval.weekly →
          (createMembershipPeriodEntities ⟨2024, 6, 1⟩ BillingInterval.monthly 0
            6).getLast?.map PeriodEntity.stop
            = some (calculateValidUntil ⟨2024, 6, 1⟩ BillingInterval.monthly 6))
      ∧ ((⟨2024, 6, 1⟩ : JSDate).day ≤ 28 →
          (createMembershipPeriodEntities ⟨2024, 6, 1⟩ BillingInterval.monthly 0
            6).getLast?.map PeriodEntity.stop
            = some (calculateValidUntil ⟨2024, 6, 1⟩ BillingInterval.monthly 6))) :=
  ⟨by decide, by decide,
    periods_structure_amended ⟨2024, 6, 1⟩ BillingInterval.monthly 6 0
      (by decide) (by decide)⟩

/-- C9: the termination write sequence is not atomic in the code — there
is no enclosing transaction, so stopping after the first period save
leaves an observable store (first period `terminated`, second period and
the membership unchanged) that is neither the original nor the fully
terminated one, contradicting the all-or-nothing requirement. -/
theorem termination_writes_observable_partial_state :
    terminateMembership
        ⟨MState.active, [⟨0, 10, MState.active⟩, ⟨10, 20, MState.pending⟩]⟩ 5
      = some ⟨MState.terminated,
          [⟨0, 10, MState.terminated⟩, ⟨10, 20, MState.terminated⟩]⟩
    ∧ terminateWriteOps
        ⟨MState.active, [⟨0, 10, MState.active⟩, ⟨10, 20, MState.pending⟩]⟩ 5
      = [WriteOp.savePeriod 0, WriteOp.savePeriod 1, WriteOp.saveMembership]
    ∧ applyOps ⟨MState.active, [⟨0, 10, MState.active⟩, ⟨10, 20, MState.pending⟩]⟩
        (terminateWriteOps
          ⟨MState.active, [⟨0, 10, MState.active⟩, ⟨10, 20, MState.pending⟩]⟩ 5)
      = ⟨MState.terminated,
          [⟨0, 10, MState.terminated⟩, ⟨10, 20, MState.terminated⟩]⟩
    ∧ applyOps ⟨MState.active, [⟨0, 10, MState.active⟩, ⟨10, 20, MState.pending⟩]⟩
        ((terminateWriteOps
          ⟨MState.active, [⟨0, 10, MState.active⟩, ⟨10, 20, MState.pending⟩]⟩
          5).take 1)
      = ⟨MState.active, [⟨0, 10, MState.terminated⟩, ⟨10, 20, MState.pending⟩]⟩
    ∧ (⟨MState.active, [⟨0, 10, MState.terminated⟩, ⟨10, 20, MState.pending⟩]⟩ :
          TMembership)
        ≠ ⟨MState.active, [⟨0, 10, MState.active⟩, ⟨10, 20, MState.pending⟩]⟩
    ∧ (⟨MState.active, [⟨0, 10, MState.terminated⟩, ⟨10, 20, MState.pending⟩]⟩ :
          TMembership)
        ≠ ⟨MState.terminated,
            [⟨0, 10, MState.terminated⟩, ⟨10, 20, MState.terminated⟩]⟩ := by
  decide

/-- C1: the claim expects `calculateValidUntil` to clamp 2024-01-31 plus
one month to the last day of February 2024; the code's `setMonth` rolls
the out-of-range day over instead, yielding 2024-03-02 (month index 2 =
March), in contradiction with the repository's own test
(`memberships.service.spec.ts`, "should handle month boundaries
correctly for monthly billing", which expects `getMonth() = 1`). -/
theorem calculateValidUntil_monthEnd_overflows :
    calculateValidUntil ⟨2024, 0, 31⟩ BillingInterval.monthly 1 = ⟨2024, 2, 2⟩
    ∧ (calculateValidUntil ⟨2024, 0, 31⟩ BillingInterval.monthly 1).month ≠ 1 := by
  constructor
  · rfl
  · decide

/-- C3: `terminateMembership` fails exactly when the membership's state
is neither `active` nor `pending`, or no period ends after `now`, or
exactly one period ends after `now` and that period has started
(`start ≤ now`); in every other case it succeeds and sets every period
ending after `now`, and the membership, to `terminated`. -/
theorem terminateMembership_characterization (m : TMembership) (now : Nat) :
    terminateMembership m now =
      if (m.state ≠ MState.active ∧ m.state ≠ MState.pending)
          ∨ remainingPeriodsOf m now = []
          ∨ ((remainingPeriodsOf m now).length = 1
              ∧ ∀ p ∈ remainingPeriodsOf m now, p.startT ≤ now) then
        none
      else
        some ⟨MState.terminated,
          m.periods.map (fun p =>
            if now < p.endT then { p with state := MState.terminated } else p)⟩ := by
  unfold terminateMembership
  by_cases hstate : m.state = MState.active ∨ m.state = MState.pending
  · rw [if_pos hstate]
    have hstate' : ¬ (m.state ≠ MState.active ∧ m.state ≠ MState.pending) := by
      rcases hstate with h | h <;> simp [h]
    cases hrem : remainingPeriodsOf m now with
    | nil => simp [hrem, hstate']
    | cons p rest =>
      cases rest with
      | nil =>
        by_cases hst : p.startT ≤ now
        · simp [hrem, hstate', hst]
        · simp [hrem, hstate', hst]
      | cons q rest2 => simp [hrem, hstate']
  · rw [if_neg hstate]
    have hstate' : m.state ≠ MState.active ∧ m.state ≠ MState.pending := by
      constructor <;> intro h <;> exact hstate (by simp [h])
    simp [hstate']

/-- C4: the derived membership state is `pending` iff `validFrom` is in
the future, `expired` iff the window has passed, `active` otherwise, and
never `terminated`; `determinePeriodState` is the same rule, so a newly
created period is `pending` when its start is in the future, `active`
when `now` falls within `[start, end)`, `expired` when its end is past;
and every generated period is stamped by this rule applied to its own
boundaries. -/
theorem state_derivation_characterization (vf vu s e now : Nat) :
    (determineMembershipState vf vu now = MState.pending ↔ now < vf)
    ∧ (determineMembershipState vf vu now = MState.expired ↔ vf ≤ now ∧ vu < now)
    ∧ (determineMembershipState vf vu now = MState.active ↔ vf ≤ now ∧ now ≤ vu)
    ∧ determineMembershipState vf vu now ≠ MState.terminated
    ∧ determinePeriodState s e now = determineMembershipState s e now
    ∧ (now < s → determinePeriodState s e now = MState.pending)
    ∧ (s ≤ now ∧ now < e → determinePeriodState s e now = MState.active)
    ∧ (s < e ∧ e < now → determinePeriodState s e now = MState.expired)
    ∧ (∀ (start : JSDate) (bi : BillingInterval) (n : Nat) (p : PeriodEntity),
        p ∈ createMembershipPeriodEntities start bi now n →
        p.state = determinePeriodState (dateKey p.start) (dateKey p.stop) now) := by
  refine ⟨?_, ?_, ?_, ?_, rfl, ?_, ?_, ?_,
    fun start bi n => state_of_mem_buildPeriods now n start bi⟩ <;>
    simp only [determineMembershipState, determinePeriodState] <;>
    intros <;> split_ifs <;>
    first
      | rfl
      | omega
      | simp_all

/-- C7: `ValidateBillingPeriodsConstraint` rejects exactly the
billing-period counts outside the interval's bound, and
`defaultMessage` names the corresponding code: monthly below 6 →
`billingPeriodsLessThan6Months`, monthly above 12 →
`billingPeriodsMoreThan12Months`, weekly above 26 →
`weeklyBillingCannotExceed6Months`, yearly above 10 →
`billingPeriodsMoreThan10Years`. -/
theorem billingPeriods_bounds_characterization (bp : Int) :
    (validateBillingPeriods (some "monthly") bp = false ↔ bp < 6 ∨ 12 < bp)
    ∧ (bp < 6 →
        billingPeriodsMessage (some "monthly") bp = "billingPeriodsLessThan6Months")
    ∧ (12 < bp →
        billingPeriodsMessage (some "monthly") bp = "billingPeriodsMoreThan12Months")
    ∧ (validateBillingPeriods (some "weekly") bp = false ↔ 26 < bp)
    ∧ (26 < bp →
        billingPeriodsMessage (some "weekly") bp = "weeklyBillingCannotExceed6Months")
    ∧ (validateBillingPeriods (some "yearly") bp = false ↔ 10 < bp)
    ∧ (10 < bp →
        billingPeriodsMessage (some "yearly") bp = "billingPeriodsMoreThan10Years") := by
  refine ⟨?_, ?_, ?_, ?_, ?_, ?_, ?_⟩ <;>
    simp only [validateBillingPeriods, billingPeriodsMessage, validIntervals] <;>
    norm_num <;>
    intros <;>
    first
      | rfl
      | omega
      | (split_ifs <;> (try rfl) <;> omega)
      | (exfalso; omega)
      | simp_all

/-- C8: `CashPriceLimitConstraint` fails exactly for cash payments with
`recurringPrice > 100`, with message `cashPriceBelow100`; cash at a
price ≤ 100 and any non-cash payment method pass. -/
theorem cashPriceLimit_characterization (pm : Option String) (price : Int) :
    (cashPriceLimitValidate (some "cash") price = false ↔ 100 < price)
    ∧ (price ≤ 100 → cashPriceLimitValidate (some "cash") price = true)
    ∧ (pm ≠ some "cash" → cashPriceLimitValidate pm price = true)
    ∧ cashPriceLimitMessage = "cashPriceBelow100" := by
  refine ⟨?_, ?_, ?_, rfl⟩ <;>
    simp only [cashPriceLimitValidate] <;>
    intros <;> simp_all

theorem legacyResponse_eq_some (isDS : String → Bool) (r : CreateReq)
    (h : validationMessages isDS r ≠ []) :
    legacyResponse isDS r
      = some (getHighestPriorityError (validationMessages isDS r)) := by
  unfold legacyResponse
  cases hm : validationMessages isDS r with
  | nil => exact absurd hm h
  | cons a l => rfl

theorem gHPE_of_missing (msgs : List String)
    (h : "missingMandatoryFields" ∈ msgs) :
    getHighestPriorityError msgs = "missingMandatoryFields" := by
  have hc : msgs.contains "missingMandatoryFields" = true := List.elem_iff.mpr h
  unfold getHighestPriorityError
  simp only [errorPriority]
  rw [List.find?_cons_of_pos _ (by simpa using hc)]

theorem missing_mem_validationMessages (isDS : String → Bool) (r : CreateReq)
    (h : anyMissing r = true) :
    "missingMandatoryFields" ∈ validationMessages isDS r := by
  unfold anyMissing at h
  unfold validationMessages
  simp only [Bool.or_eq_true] at h
  rcases h with ((((h | h) | h) | h) | h)
  · simp only [Bool.not_eq_true'] at h
    simp [h]
  · rw [Option.isNone_iff_eq_none] at h
    simp [h]
  · simp only [Bool.not_eq_true'] at h
    rcases hx : r.paymentMethod with _ | s
    · simp [hx]
    · rw [hx] at h
      simp only [isNotEmptyStr] at h
      simp only [decide_eq_false_iff_not, not_not] at h
      subst h
      simp [hx]
  · simp only [Bool.not_eq_true'] at h
    rcases hx : r.billingInterval with _ | s
    · simp [hx]
    · rw [hx] at h
      simp only [isNotEmptyStr] at h
      simp only [decide_eq_false_iff_not, not_not] at h
      subst h
      simp [hx]
  · rw [Option.isNone_iff_eq_none] at h
    simp [h]

theorem isNotEmptyStr_some (s : String) :
    isNotEmptyStr (some s) = decide (¬ (s = "")) := rfl

set_option maxHeartbeats 1000000 in
/-- C6 (amended): for every creation request whose payment method is
absent, empty, or one of the accepted values, the filter reports
exactly one error code, and it is the highest-priority failing rule in
the fixed order: missing mandatory fields, then negative price, then
cash limit, then interval, then billing-period bounds, then validFrom
format — never a list of all failing-field errors.  For a request with
an invalid payment-method enum value the single reported code can
instead be `invalidPaymentMethod`, which the claimed priority order
does not rank (see the counterexample). -/
theorem legacy_single_error_priority (isDS : String → Bool) (r : CreateReq)
    (hpm : r.paymentMethod = none ∨ r.paymentMethod = some ""
      ∨ r.paymentMethod = some "cash" ∨ r.paymentMethod = some "credit card") :
    legacyResponse isDS r = claimOrderedError isDS r := by
  by_cases hmiss : anyMissing r = true
  · have hm := missing_mem_validationMessages isDS r hmiss
    rw [legacyResponse_eq_some isDS r (List.ne_nil_of_mem hm), gHPE_of_missing _ hm]
    simp [claimOrderedError, hmiss]
  · rw [Bool.not_eq_true] at hmiss
    simp only [anyMissing, Bool.or_eq_false_iff, Bool.not_eq_false'] at hmiss
    obtain ⟨⟨⟨⟨hname, hpn⟩, hpmne⟩, hbine⟩, hbpn⟩ := hmiss
    rcases hp : r.recurringPrice with _ | p
    · rw [hp] at hpn; simp at hpn
    rcases hbp : r.billingPeriods with _ | bpv
    · rw [hbp] at hbpn; simp at hbpn
    rcases hbi : r.billingInterval with _ | biv
    · rw [hbi] at hbine; simp [isNotEmptyStr] at hbine
    have hbivne : ¬ (biv = "") := by
      rw [hbi] at hbine
      simpa [isNotEmptyStr] using hbine
    have hpm2 : r.paymentMethod = some "cash"
        ∨ r.paymentMethod = some "credit card" := by
      rcases hpm with h0 | h0 | h0 | h0
      · rw [h0] at hpmne; simp [isNotEmptyStr] at hpmne
      · rw [h0] at hpmne; simp [isNotEmptyStr] at hpmne
      · exact Or.inl h0
      · exact Or.inr h0
    rcases hpm2 with h0 | h0
    · -- paymentMethod = "cash"
      by_cases hbiv : validIntervals.contains biv = true
      · have hmem : biv ∈ validIntervals := by
          simpa using hbiv
        have h3 : biv = "monthly" ∨ biv = "weekly" ∨ biv = "yearly" := by
          simpa [validIntervals] using hmem
        rcases h3 with rfl | rfl | rfl
        · by_cases h6 : bpv < 6 <;>
            by_cases h12 : 12 < bpv <;>
            by_cases hlt : bpv < 1 <;>
            by_cases hneg : p < 0 <;>
            by_cases h100 : 100 < p <;>
            (try have hd1 : (6 : Int) ≤ bpv := by omega) <;>
            (try have hd2 : ¬ (6 : Int) ≤ bpv := by omega) <;>
            (try have hd3 : bpv ≤ (12 : Int) := by omega) <;>
            (try have hd4 : ¬ bpv ≤ (12 : Int) := by omega) <;>
            rcases hvf : r.validFrom with _ | s <;>
            (try by_cases hds : isDS s = true) <;>
            first
              | (exfalso; omega)
              | simp [*, legacyResponse, validationMessages, claimOrderedError,
                  anyMissing, priceNegative, cashFails, intervalInvalid,
                  bpOutOfBounds, bpBoundsCode, validFromBad,
                  cashPriceLimitValidate, cashPriceLimitMessage,
                  validateBillingPeriods, billingPeriodsMessage, validIntervals,
                  getHighestPriorityError, errorPriority, isNotEmptyStr_some]
        · by_cases h26 : 26 < bpv <;>
            by_cases hlt : bpv < 1 <;>
            by_cases hneg : p < 0 <;>
            by_cases h100 : 100 < p <;>
            (try have hd1 : bpv ≤ (26 : Int) := by omega) <;>
            (try have hd2 : ¬ bpv ≤ (26 : Int) := by omega) <;>
            rcases hvf : r.validFrom with _ | s <;>
            (try by_cases hds : isDS s = true) <;>
            first
              | (exfalso; omega)
              | simp [*, legacyResponse, validationMessages, claimOrderedError,
                  anyMissing, priceNegative, cashFails, intervalInvalid,
                  bpOutOfBounds, bpBoundsCode, validFromBad,
                  cashPriceLimitValidate, cashPriceLimitMessage,
                  validateBillingPeriods, billingPeriodsMessage, validIntervals,
                  getHighestPriorityError, errorPriority, isNotEmptyStr_some]
        · by_cases h10 : 10 < bpv <;>
            by_cases hlt : bpv < 1 <;>
            by_cases hneg : p < 0 <;>
            by_cases h100 : 100 < p <;>
            (try have hd1 : bpv ≤ (10 : Int) := by omega) <;>
            (try have hd2 : ¬ bpv ≤ (10 : Int) := by omega) <;>
            rcases hvf : r.validFrom with _ | s <;>
            (try by_cases hds : isDS s = true) <;>
            first
              | (exfalso; omega)
              | simp [*, legacyResponse, validationMessages, claimOrderedError,
                  anyMissing, priceNegative, cashFails, intervalInvalid,
                  bpOutOfBounds, bpBoundsCode, validFromBad,
                  cashPriceLimitValidate, cashPriceLimitMessage,
                  validateBillingPeriods, billingPeriodsMessage, validIntervals,
                  getHighestPriorityError, errorPriority, isNotEmptyStr_some]
      · have hb1 : ¬ (biv = "monthly") := by
          intro hx; subst hx; exact hbiv (by decide)
        have hb2 : ¬ (biv = "weekly") := by
          intro hx; subst hx; exact hbiv (by decide)
        have hb3 : ¬ (biv = "yearly") := by
          intro hx; subst hx; exact hbiv (by decide)
        by_cases hlt : bpv < 1 <;>
            by_cases hneg : p < 0 <;>
            by_cases h100 : 100 < p <;>
            rcases hvf : r.validFrom with _ | s <;>
            (try by_cases hds : isDS s = true) <;>
            first
              | (exfalso; omega)
              | simp [*, legacyResponse, validationMessages, claimOrderedError,
                  anyMissing, priceNegative, cashFails, intervalInvalid,
                  bpOutOfBounds, bpBoundsCode, validFromBad,
                  cashPriceLimitValidate, cashPriceLimitMessage,
                  validateBillingPeriods, billingPeriodsMessage, validIntervals,
                  getHighestPriorityError, errorPriority, isNotEmptyStr_some]
    · -- paymentMethod = "credit card"
      by_cases hbiv : validIntervals.contains biv = true
      · have hmem : biv ∈ validIntervals := by
          simpa using hbiv
        have h3 : biv = "monthly" ∨ biv = "weekly" ∨ biv = "yearly" := by
          simpa [validIntervals] using hmem
        rcases h3 with rfl | rfl | rfl
        · by_cases h6 : bpv < 6 <;>
            by_cases h12 : 12 < bpv <;>
            by_cases hlt : bpv < 1 <;>
            by_cases hneg : p < 0 <;>
            (try have hd1 : (6 : Int) ≤ bpv := by omega) <;>
            (try have hd2 : ¬ (6 : Int) ≤ bpv := by omega) <;>
            (try have hd3 : bpv ≤ (12 : Int) := by omega) <;>
            (try have hd4 : ¬ bpv ≤ (12 : Int) := by omega) <;>
            rcases hvf : r.validFrom with _ | s <;>
            (try by_cases hds : isDS s = true) <;>
            first
              | (exfalso; omega)
              | simp [*, legacyResponse, validationMessages, claimOrderedError,
                  anyMissing, priceNegative, cashFails, intervalInvalid,
                  bpOutOfBounds, bpBoundsCode, validFromBad,
                  cashPriceLimitValidate, cashPriceLimitMessage,
                  validateBillingPeriods, billingPeriodsMessage, validIntervals,
                  getHighestPriorityError, errorPriority, isNotEmptyStr_some]
        · by_cases h26 : 26 < bpv <;>
            by_cases hlt : bpv < 1 <;>
            by_cases hneg : p < 0 <;>
            (try have hd1 : bpv ≤ (26 : Int) := by omega) <;>
            (try have hd2 : ¬ bpv ≤ (26 : Int) := by omega) <;>
            rcases hvf : r.validFrom with _ | s <;>
            (try by_cases hds : isDS s = true) <;>
            first
              | (exfalso; omega)
              | simp [*, legacyResponse, validationMessages, claimOrderedError,
                  anyMissing, priceNegative, cashFails, intervalInvalid,
                  bpOutOfBounds, bpBoundsCode, validFromBad,
                  cashPriceLimitValidate, cashPriceLimitMessage,
                  validateBillingPeriods, billingPeriodsMessage, validIntervals,
                  getHighestPriorityError, errorPriority, isNotEmptyStr_some]
        · by_cases h10 : 10 < bpv <;>
            by_cases hlt : bpv < 1 <;>
            by_cases hneg : p < 0 <;>
            (try have hd1 : bpv ≤ (10 : Int) := by omega) <;>
            (try have hd2 : ¬ bpv ≤ (10 : Int) := by omega) <;>
            rcases hvf : r.validFrom with _ | s <;>
            (try by_cases hds : isDS s = true) <;>
            first
              | (exfalso; omega)
              | simp [*, legacyResponse, validationMessages, claimOrderedError,
                  anyMissing, priceNegative, cashFails, intervalInvalid,
                  bpOutOfBounds, bpBoundsCode, validFromBad,
                  cashPriceLimitValidate, cashPriceLimitMessage,
                  validateBillingPeriods, billingPeriodsMessage, validIntervals,
                  getHighestPriorityError, errorPriority, isNotEmptyStr_some]
      · have hb1 : ¬ (biv = "monthly") := by
          intro hx; subst hx; exact hbiv (by decide)
        have hb2 : ¬ (biv = "weekly") := by
          intro hx; subst hx; exact hbiv (by decide)
        have hb3 : ¬ (biv = "yearly") := by
          intro hx; subst hx; exact hbiv (by decide)
        by_cases hlt : bpv < 1 <;>
            by_cases hneg : p < 0 <;>
            rcases hvf : r.validFrom with _ | s <;>
            (try by_cases hds : isDS s = true) <;>
            first
              | (exfalso; omega)
              | simp [*, legacyResponse, validationMessages, claimOrderedError,
                  anyMissing, priceNegative, cashFails, intervalInvalid,
                  bpOutOfBounds, bpBoundsCode, validFromBad,
                  cashPriceLimitValidate, cashPriceLimitMessage,
                  validateBillingPeriods, billingPeriodsMessage, validIntervals,
                  getHighestPriorityError, errorPriority, isNotEmptyStr_some]

/-- Witness for C6 at a request failing several rules at once:
cash with price 150 (cash limit), interval "daily" (invalid interval)
and a malformed validFrom; the reported single code is the
highest-priority failure, `cashPriceBelow100`. -/
theorem legacy_single_error_priority_witness :
    ((⟨some "Gold", some 150, some "cash", some "daily", some 3,
        some "notadate"⟩ : CreateReq).paymentMethod = none
      ∨ (⟨some "Gold", some 150, some "cash", some "daily", some 3,
          some "notadate"⟩ : CreateReq).paymentMethod = some ""
      ∨ (⟨some "Gold", some 150, some "cash", some "daily", some 3,
          some "notadate"⟩ : CreateReq).paymentMethod = some "cash"
      ∨ (⟨some "Gold", some 150, some "cash", some "daily", some 3,
          some "notadate"⟩ : CreateReq).paymentMethod = some "credit card")
    ∧ legacyResponse (fun _ => false)
        ⟨some "Gold", some 150, some "cash", some "daily", some 3,
          some "notadate"⟩
      = claimOrderedError (fun _ => false)
        ⟨some "Gold", some 150, some "cash", some "daily", some 3,
          some "notadate"⟩
    ∧ legacyResponse (fun _ => false)
        ⟨some "Gold", some 150, some "cash", some "daily", some 3,
          some "notadate"⟩
      = some "cashPriceBelow100" :=
  ⟨Or.inr (Or.inr (Or.inl rfl)),
    legacy_single_error_priority (fun _ => false)
      ⟨some "Gold", some 150, some "cash", some "daily", some 3,
        some "notadate"⟩ (Or.inr (Or.inr (Or.inl rfl))),
    rfl⟩

/-- Counterexample to C6 as stated: the request (name "Gold", price 50,
paymentMethod "paypal", interval "weekly", billingPeriods 30, malformed
validFrom) fails two rules of the claim's own priority enumeration
(billing-period bounds and validFrom format), yet the filter reports
`invalidPaymentMethod` — the first flattened message, since none of the
three failing codes occurs in `errorPriority` — instead of the claimed
highest-priority code `weeklyBillingCannotExceed6Months`. -/
theorem legacy_priority_counterexample :
    validationMessages (fun _ => false)
        ⟨some "Gold", some 50, some "paypal", some "weekly", some 30,
          some "nope"⟩
      = ["invalidPaymentMethod", "weeklyBillingCannotExceed6Months",
          "validFromMustBeAValidDateString"]
    ∧ legacyResponse (fun _ => false)
        ⟨some "Gold", some 50, some "paypal", some "weekly", some 30,
          some "nope"⟩
      = some "invalidPaymentMethod"
    ∧ legacyResponse (fun _ => false)
        ⟨some "Gold", some 50, some "paypal", some "weekly", some 30,
          some "nope"⟩
      ≠ some "weeklyBillingCannotExceed6Months" :=
  ⟨rfl, rfl, by decide⟩

/-- C10: terminating a missing id is surfaced exactly like a
business-rule rejection — the service returns `false` and the
controller answers 400 "Termination not allowed …" — not 404, while
`deleteMembership` answers a 404 naming the id. -/
theorem terminate_missing_id_not_found_shape
    (store : List (Nat × TMembership)) (id now : Nat)
    (h : findMembership store id = none)
    (store2 : List (Nat × TMembership)) (id2 now2 : Nat) (m : TMembership)
    (h2 : findMembership store2 id2 = some m)
    (h3 : terminateMembership m now2 = none) :
    controllerTerminate store id now = ⟨400, terminationNotAllowedMsg⟩
    ∧ controllerTerminate store id now = controllerTerminate store2 id2 now2
    ∧ (controllerTerminate store id now).status ≠ 404
    ∧ controllerDelete store id =
        ⟨404, "Membership with ID " ++ toString id ++ " not found"⟩ := by
  have ht : terminateMembershipById store id now = false := by
    unfold terminateMembershipById; rw [h]
  have ht2 : terminateMembershipById store2 id2 now2 = false := by
    unfold terminateMembershipById
    rw [h2]
    show (terminateMembership m now2).isSome = false
    rw [h3]
    rfl
  have hd : controllerDelete store id =
      ⟨404, "Membership with ID " ++ toString id ++ " not found"⟩ := by
    unfold controllerDelete; rw [h]
  refine ⟨?_, ?_, ?_, hd⟩ <;> simp [controllerTerminate, ht, ht2]

/-- Witness for C10 at a concrete store: id 7 is absent from the empty
store; id 1 of the second store exists but is `terminated`, so its
termination is a business-rule rejection. -/
theorem terminate_missing_id_not_found_shape_witness :
    findMembership [] 7 = none
    ∧ findMembership [(1, ⟨MState.terminated, []⟩)] 1
        = some ⟨MState.terminated, []⟩
    ∧ terminateMembership ⟨MState.terminated, []⟩ 0 = none
    ∧ (controllerTerminate [] 7 0 = ⟨400, terminationNotAllowedMsg⟩
        ∧ controllerTerminate [] 7 0
            = controllerTerminate [(1, ⟨MState.terminated, []⟩)] 1 0
        ∧ (controllerTerminate [] 7 0).status ≠ 404
        ∧ controllerDelete [] 7 =
            ⟨404, "Membership with ID " ++ toString 7 ++ " not found"⟩) :=
  ⟨rfl, rfl, rfl,
    terminate_missing_id_not_found_shape [] 7 0 rfl
      [(1, ⟨MState.terminated, []⟩)] 1 0 ⟨MState.terminated, []⟩ rfl rfl⟩

end ApiRefactoring
